import Mathlib

/-!
Verification of the `lisel` line-selection engine.

The development shallowly embeds the Rust sources:
  * `src/lineparse.rs` — the numeric range grammar parser (nom combinators),
  * `src/index.rs` — the selection predicate `Type` (here `Ty`),
  * `src/select.rs` — the streaming selection engine `Select`,
  * `src/main.rs` — the `new_index_type` dialect selector.

Machine integers (`u32`) are embedded as `Nat` with the explicit bounds
`U32_MIN = 0` and `U32_MAX = 2^32 - 1`; `value.parse::<u32>().unwrap()`
panics on overflow, which is embedded as the explicit `panicked` outcome.
Line streams (`BufRead`) are embedded as lists of read results: each list
element is one successful or failing `read_line` call, and the end of the
list is end-of-stream (`Ok(0)`).  General recursion in the engine is
embedded with an explicit fuel parameter; running out of fuel is the
distinguished outcome `fuelOut`, distinct from every program behaviour.
-/

deriving instance DecidableEq for Except

namespace Lisel

/-- `u32::MIN`. -/
def U32_MIN : Nat := 0

/-- `u32::MAX`. -/
def U32_MAX : Nat := 4294967295

/-- One result of a `read_line` call on a `BufRead` stream: either a line
(with its terminator, `Ok(n)` with `n ≥ 1`) or an IO error.  End of stream
(`Ok(0)`) is the end of the list of read items. -/
inductive ReadItem where
  | ok (line : String)
  | err (e : String)
deriving Repr, DecidableEq

/-- Modelled from the spec: `crate::str::rstrip` (the file `src/str.rs` is
not among the provided sources).  Per §2 ("Line Trim Helper — strips
trailing newline/carriage-return from a freshly read line") it removes the
trailing line terminator characters. -/
def rstrip (s : String) : String :=
  String.mk ((s.data.reverse.dropWhile (fun c => c == '\n' || c == '\r')).reverse)

/-- Split a byte stream into the chunks successive `read_line` calls
return: each chunk ends at a `'\n'` (kept), a final chunk without a
terminator is returned as-is. -/
def toLinesAux : List Char → List Char → List String
  | acc, [] => if acc.isEmpty then [] else [String.mk acc.reverse]
  | acc, c :: cs =>
      if c == '\n' then String.mk (acc.reverse ++ ['\n']) :: toLinesAux [] cs
      else toLinesAux (c :: acc) cs

/-- The list of lines `read_line` yields on a given input string. -/
def toLines (s : String) : List String := toLinesAux [] s.data

/-- A stream whose reads all succeed, yielding the lines of `s`. -/
def okStream (s : String) : List ReadItem := (toLines s).map ReadItem.ok

/-! ## `src/lineparse.rs` — the range grammar -/

/-- `Range`: expressions arranged in rows of the index file. -/
inductive Range where
  /-- NATURAL_NUMBER -/
  | Single (n : Nat)
  /-- NATURAL_NUMBER,NATURAL_NUMBER / ,NATURAL_NUMBER / NATURAL_NUMBER, -/
  | Interval (s e : Nat)
deriving Repr, DecidableEq

/-- Outcome of a nom parser: success with the remaining input, a
recoverable parse error (`nom` `Err::Error`, as produced by `fail` or an
unmatched `tag`/`one_of`), or a Rust panic (from `.unwrap()`). -/
inductive PRes (α : Type) where
  | ok (rest : String) (val : α)
  | fail
  | panicked
deriving Repr, DecidableEq

/-- Numeric value of a list of decimal digit characters (the behaviour of
`str::parse` on a recognized digit run, before the `u32` range check). -/
def digitsToNat (ds : List Char) : Nat :=
  ds.foldl (fun a c => 10 * a + (c.toNat - 48)) 0

/-- nom's `one_of`: the character is one of the characters of `cs`. -/
def one_of (cs : String) (c : Char) : Bool := cs.data.contains c

/-- `natural`: parse a natural number.  `recognize(many1(one_of
"0123456789"))` takes the longest leading digit run; `parse::<u32>()
.unwrap()` panics when the run's value exceeds `u32::MAX`; values `< 1`
are rejected via `fail`. -/
def natural (input : String) : PRes Nat :=
  let ds := input.data.takeWhile (one_of "0123456789")
  if ds.isEmpty then .fail
  else
    let rest := String.mk (input.data.dropWhile (one_of "0123456789"))
    let v := digitsToNat ds
    if v > U32_MAX then .panicked
    else if v < 1 then .fail
    else .ok rest v

/-- nom's `tag`: match a literal prefix. -/
def tag (t : String) (input : String) : PRes Unit :=
  if t.data.isPrefixOf input.data then .ok (String.mk (input.data.drop t.data.length)) ()
  else .fail

/-- `single`: a lone natural number. -/
def single (input : String) : PRes Range :=
  match natural input with
  | .ok rest v => .ok rest (Range.Single v)
  | .fail => .fail
  | .panicked => .panicked

/-- `interval_left_open`: `,N` becomes `Interval(u32::MIN, N)`. -/
def interval_left_open (input : String) : PRes Range :=
  match tag "," input with
  | .ok rest _ =>
      match natural rest with
      | .ok rest v => .ok rest (Range.Interval U32_MIN v)
      | .fail => .fail
      | .panicked => .panicked
  | .fail => .fail
  | .panicked => .panicked

/-- `interval_right_open`: `N,` becomes `Interval(N, u32::MAX)`. -/
def interval_right_open (input : String) : PRes Range :=
  match natural input with
  | .ok rest v =>
      match tag "," rest with
      | .ok rest _ => .ok rest (Range.Interval v U32_MAX)
      | .fail => .fail
      | .panicked => .panicked
  | .fail => .fail
  | .panicked => .panicked

/-- `interval`: `N,M` becomes `Interval(N, M)` (no ordering check). -/
def interval (input : String) : PRes Range :=
  match natural input with
  | .ok rest a =>
      match tag "," rest with
      | .ok rest _ =>
          match natural rest with
          | .ok rest b => .ok rest (Range.Interval a b)
          | .fail => .fail
          | .panicked => .panicked
      | .fail => .fail
      | .panicked => .panicked
  | .fail => .fail
  | .panicked => .panicked

/-- `range`: `alt((interval, interval_left_open, interval_right_open,
single))` — alternatives tried in order, a recoverable error moves to the
next alternative, a panic propagates. -/
def range (input : String) : PRes Range :=
  match interval input with
  | .ok rest v => .ok rest v
  | .panicked => .panicked
  | .fail =>
      match interval_left_open input with
      | .ok rest v => .ok rest v
      | .panicked => .panicked
      | .fail =>
          match interval_right_open input with
          | .ok rest v => .ok rest v
          | .panicked => .panicked
          | .fail => single input

/-! ## `src/index.rs` — the selection predicate -/

/-- `Type` from `src/index.rs` (renamed `Ty`: `Type` is reserved in Lean).
The `Re` variant wraps a compiled regex; the regex crate is external to
the repository, so a regex is embedded as its matching function
`String → Bool` (`Regex::is_match`). -/
inductive Ty where
  | Re (p : String → Bool)
  | Number (r : Range)

/-- `Type::select`. -/
def Ty.select : Ty → Nat → String → Bool
  | .Number (.Single n), linum, _ => n == linum
  | .Number (.Interval s e), linum, _ => decide (s ≤ linum) && decide (linum ≤ e)
  | .Re r, _, line => r line

/-- `Type::start`. -/
def Ty.start : Ty → Nat
  | .Re _ => U32_MIN
  | .Number (.Single n) => n
  | .Number (.Interval s _) => s

/-- `Type::end`. -/
def Ty.end_ : Ty → Nat
  | .Re _ => U32_MAX
  | .Number (.Single n) => n
  | .Number (.Interval _ e) => e

/-! ## `src/select.rs` — the streaming selection engine -/

/-- `SelectError`. -/
inductive SelectError where
  | Io (s : String)
  | Parse (s : String)
deriving Repr, DecidableEq

/-- `SelectResult`. -/
inductive SelectResult where
  | Error (e : SelectError)
  | EndOfIndex
  | Accept
  | Deny
deriving Repr, DecidableEq

/-- The `Select` iterator state.  The two `BufRead` streams are embedded as
the lists of their still-unread read results. -/
structure Select where
  index_type : Option Ty
  invert_match : Bool
  target_stream : List ReadItem
  target_stream_linum : Nat
  index_stream : List ReadItem
  index_stream_linum : Nat
  /-- End of iterator. -/
  eoi : Bool

/-- `Select::new`. -/
def Select.new (target_stream index_stream : List ReadItem) (index_type : Option Ty)
    (invert_match : Bool) : Select :=
  { index_type := index_type
    invert_match := invert_match
    target_stream := target_stream
    index_stream := index_stream
    target_stream_linum := 0
    eoi := false
    index_stream_linum := 0 }

/-- Outcome of a fuel-bounded computation: a value, a Rust panic, or
exhaustion of the fuel bound (an artifact of the embedding, distinct from
every program behaviour). -/
inductive Res (α : Type) where
  | ok (val : α)
  | panicked
  | fuelOut
deriving Repr, DecidableEq

/-- The parse failure message built by `Select::select`'s `format!` call.
The trailing `result={}` fragment renders the nom error value, whose
`Display` implementation lives in the external nom crate; it is embedded
as the fixed text `error`. -/
def parseErrorMessage (linum index_stream_linum : Nat) (index_line : String) : String :=
  "Number|target=" ++ toString linum ++ "|index=" ++ toString index_stream_linum ++
    "|line=" ++ index_line ++ "|result=error"

/-- `Select::select`.  The self-recursive calls of the source are bounded
by the explicit `fuel` argument; every recursive call in the source either
consumes an index line or clears the numeric predicate, so any fuel beyond
`2 * index_stream.length + 1` is sufficient. -/
def Select.select (fuel : Nat) (s : Select) (linum : Nat) : Res (SelectResult × Select) :=
  match fuel with
  | 0 => .fuelOut
  | fuel + 1 =>
    match s.index_type with
    | some (.Re p) =>
      match s.index_stream with
      | [] =>
          -- read_line returned Ok(0): end of the index stream
          let s1 := { s with index_stream_linum := s.index_stream_linum + 1 }
          -- invert end of index, accept all lines
          if s1.invert_match then .ok (.Accept, s1)
          -- ignore lines in the index file that exceed the number of lines in the target file
          else .ok (.EndOfIndex, s1)
      | .err e :: rest =>
          .ok (.Error (.Io e),
            { s with index_stream := rest, index_stream_linum := s.index_stream_linum + 1 })
      | .ok l :: rest =>
          let s1 := { s with index_stream := rest, index_stream_linum := s.index_stream_linum + 1 }
          let index_line := rstrip l
          if (Ty.Re p).select 0 index_line != s1.invert_match then .ok (.Accept, s1)
          else .ok (.Deny, s1)
    | some (.Number r) =>
      -- since we have passed the specified range, we will find a new expression
      if (Ty.Number r).end_ < linum then
        Select.select fuel { s with index_type := none } linum
      else if (Ty.Number r).select linum "" != s.invert_match then .ok (.Accept, s)
      else .ok (.Deny, s)
    | none =>
      match s.index_stream with
      | [] =>
          let s1 := { s with index_stream_linum := s.index_stream_linum + 1 }
          -- invert end of index, accept all lines
          if s1.invert_match then .ok (.Accept, s1)
          -- ignore lines in the index file that exceed the number of lines in the target file
          else .ok (.EndOfIndex, s1)
      | .err e :: rest =>
          .ok (.Error (.Io e),
            { s with index_stream := rest, index_stream_linum := s.index_stream_linum + 1 })
      | .ok l :: rest =>
          let s1 := { s with index_stream := rest, index_stream_linum := s.index_stream_linum + 1 }
          let index_line := rstrip l
          -- ignore empty lines
          if index_line.isEmpty then Select.select fuel s1 linum
          else
            match range index_line with
            | .panicked => .panicked
            | .fail =>
                .ok (.Error (.Parse (parseErrorMessage linum s1.index_stream_linum index_line)), s1)
            | .ok _ x =>
                Select.select fuel { s1 with index_type := some (.Number x) } linum

/-- `Iterator::next` for `Select`.  `None` of the source is `Option.none`;
the self-recursive calls (after `disable`, and on `Deny`) are bounded by
`fuel`; any fuel beyond `target_stream.length * (2 * index_stream.length + 2) + 2`
is sufficient. -/
def Select.next (fuel : Nat) (s : Select) : Res (Option (Except SelectError String) × Select) :=
  match fuel with
  | 0 => .fuelOut
  | fuel + 1 =>
    if s.eoi then .ok (none, s)
    else
      let s1 := { s with target_stream_linum := s.target_stream_linum + 1 }
      match s1.target_stream with
      | .err e :: rest =>
          -- disable, then emit the IO failure
          .ok (some (.error (.Io e)), { s1 with target_stream := rest, eoi := true })
      | [] =>
          -- EOF of target: disable, then self.next()
          Select.next fuel { s1 with eoi := true }
      | .ok line :: rest =>
          let s2 := { s1 with target_stream := rest }
          match Select.select fuel s2 s2.target_stream_linum with
          | .fuelOut => .fuelOut
          | .panicked => .panicked
          | .ok (.Error e, s3) => .ok (some (.error e), { s3 with eoi := true })
          -- EOF of index: disable, then self.next()
          | .ok (.EndOfIndex, s3) => Select.next fuel { s3 with eoi := true }
          | .ok (.Accept, s3) => .ok (some (.ok line), s3)
          | .ok (.Deny, s3) => Select.next fuel s3

/-- Drain the iterator (the consumption loop of `run` in `src/main.rs`):
collect every item `next` yields until it yields `None`. -/
def Select.run (fuel : Nat) (s : Select) : Res (List (Except SelectError String)) :=
  match fuel with
  | 0 => .fuelOut
  | fuel + 1 =>
    match Select.next fuel s with
    | .fuelOut => .fuelOut
    | .panicked => .panicked
    | .ok (none, _) => .ok []
    | .ok (some x, s1) =>
        match Select.run fuel s1 with
        | .fuelOut => .fuelOut
        | .panicked => .panicked
        | .ok xs => .ok (x :: xs)

/-! ## `src/main.rs` — dialect selection -/

/-- Modelled from the spec: the compiled default pattern `Regex::new(".+")`
(the regex crate is external to the repository).  Per §6, "Default
content-pattern-dialect behavior when no explicit pattern is supplied by
the caller: pattern matches any non-empty line". -/
def defaultPattern (s : String) : Bool := !s.isEmpty

/-- `new_index_type` from `src/main.rs`: the numeric dialect uses no
predicate; otherwise the supplied regex, defaulting to `.+`, becomes a
content predicate. -/
def new_index_type (r : Option (String → Bool)) (index_line_number : Bool) : Option Ty :=
  if index_line_number then none
  else ((r.orElse (fun _ => some defaultPattern)).map Ty.Re)

/-! ## Auxiliary lemmas about the parser -/

theorem dropWhile_eq_drop {α : Type} (p : α → Bool) (l : List α) :
    l.dropWhile p = l.drop (l.takeWhile p).length := by
  induction l with
  | nil => rfl
  | cons a l ih =>
    by_cases h : p a <;> simp [List.dropWhile_cons, List.takeWhile_cons, h, ih]

theorem natural_ne_panicked (l : List Char)
    (h : digitsToNat (l.takeWhile (one_of "0123456789")) ≤ U32_MAX) :
    natural (String.mk l) ≠ .panicked := by
  simp only [natural]
  split
  · simp
  · split
    · next hgt => exact absurd h (by omega)
    · split <;> simp

theorem natural_ok_rest (l : List Char) (rest : String) (v : Nat)
    (h : natural (String.mk l) = .ok rest v) :
    rest = String.mk (l.drop (l.takeWhile (one_of "0123456789")).length) := by
  simp only [natural] at h
  split at h
  · exact absurd h (by simp)
  · split at h
    · exact absurd h (by simp)
    · split at h
      · exact absurd h (by simp)
      · simp only [PRes.ok.injEq] at h
        rw [← h.1, dropWhile_eq_drop]

theorem tag_ne_panicked (t s : String) : tag t s ≠ .panicked := by
  simp only [tag]; split <;> simp

theorem tag_comma_ok (s rest : String) (u : Unit) (h : tag "," s = .ok rest u) :
    rest = String.mk (s.data.drop 1) := by
  simp only [tag] at h
  split at h
  · simp only [PRes.ok.injEq] at h
    rw [← h.1]
    rfl
  · exact absurd h (by simp)

theorem single_ne_panicked (s : String)
    (hyp : ∀ k, digitsToNat ((s.data.drop k).takeWhile (one_of "0123456789")) ≤ U32_MAX) :
    single s ≠ .panicked := by
  have h0 : natural s ≠ .panicked := natural_ne_panicked s.data (by simpa using hyp 0)
  cases hn : natural s with
  | panicked => exact absurd hn h0
  | fail => simp [single, hn]
  | ok rest v => simp [single, hn]

theorem interval_left_open_ne_panicked (s : String)
    (hyp : ∀ k, digitsToNat ((s.data.drop k).takeWhile (one_of "0123456789")) ≤ U32_MAX) :
    interval_left_open s ≠ .panicked := by
  cases ht : tag "," s with
  | panicked => exact absurd ht (tag_ne_panicked "," s)
  | fail => simp [interval_left_open, ht]
  | ok rest u =>
    have hr : rest = String.mk (s.data.drop 1) := tag_comma_ok s rest u ht
    have h1 : natural rest ≠ .panicked := by
      rw [hr]; exact natural_ne_panicked _ (hyp 1)
    cases hn : natural rest with
    | panicked => exact absurd hn h1
    | fail => simp [interval_left_open, ht, hn]
    | ok rest2 v => simp [interval_left_open, ht, hn]

theorem interval_right_open_ne_panicked (s : String)
    (hyp : ∀ k, digitsToNat ((s.data.drop k).takeWhile (one_of "0123456789")) ≤ U32_MAX) :
    interval_right_open s ≠ .panicked := by
  have h0 : natural s ≠ .panicked := natural_ne_panicked s.data (by simpa using hyp 0)
  cases hn : natural s with
  | panicked => exact absurd hn h0
  | fail => simp [interval_right_open, hn]
  | ok rest v =>
    cases ht : tag "," rest with
    | panicked => exact absurd ht (tag_ne_panicked "," rest)
    | fail => simp [interval_right_open, hn, ht]
    | ok rest2 u => simp [interval_right_open, hn, ht]

theorem interval_ne_panicked (s : String)
    (hyp : ∀ k, digitsToNat ((s.data.drop k).takeWhile (one_of "0123456789")) ≤ U32_MAX) :
    interval s ≠ .panicked := by
  have h0 : natural s ≠ .panicked := natural_ne_panicked s.data (by simpa using hyp 0)
  cases hn : natural s with
  | panicked => exact absurd hn h0
  | fail => simp [interval, hn]
  | ok rest a =>
    have hrest : rest = String.mk (s.data.drop
        (s.data.takeWhile (one_of "0123456789")).length) := natural_ok_rest s.data rest a hn
    cases ht : tag "," rest with
    | panicked => exact absurd ht (tag_ne_panicked "," rest)
    | fail => simp [interval, hn, ht]
    | ok rest2 u =>
      have hr2 : rest2 = String.mk (s.data.drop
          ((s.data.takeWhile (one_of "0123456789")).length + 1)) := by
        have := tag_comma_ok rest rest2 u ht
        rw [hrest] at this
        simpa [List.drop_drop, Nat.add_comm] using this
      have h2 : natural rest2 ≠ .panicked := by
        rw [hr2]; exact natural_ne_panicked _ (hyp _)
      cases hn2 : natural rest2 with
      | panicked => exact absurd hn2 h2
      | fail => simp [interval, hn, ht, hn2]
      | ok rest3 b => simp [interval, hn, ht, hn2]

/-! ## Claims -/

/-- C1: for the numeric dialect (no content predicate), running the engine
with target lines `l1`..`l5` (newline-terminated) and index stream
`"1\n3,4\n"` with invert flag `false` produces exactly
`["l1\n", "l3\n", "l4\n"]` and terminates without error; with invert flag
`true` it produces exactly `["l2\n", "l5\n"]`. -/
theorem C1_numeric_end_to_end :
    Select.run 30 (Select.new (okStream "l1\nl2\nl3\nl4\nl5\n") (okStream "1\n3,4\n")
        none false)
      = .ok [.ok "l1\n", .ok "l3\n", .ok "l4\n"]
    ∧ Select.run 30 (Select.new (okStream "l1\nl2\nl3\nl4\nl5\n") (okStream "1\n3,4\n")
        none true)
      = .ok [.ok "l2\n", .ok "l5\n"] := by
  constructor <;> decide

/-- C2: for the content dialect with the default pattern (no explicit
regex supplied, so `new_index_type none false` builds the predicate that
matches any non-empty line), target lines `l1`..`l5` against index stream
`"1\n\n1\n"` produce exactly `["l1\n", "l3\n"]` without error (halting
once the index is exhausted); inverted, `["l2\n", "l4\n", "l5\n"]`. -/
theorem C2_content_end_to_end :
    Select.run 30 (Select.new (okStream "l1\nl2\nl3\nl4\nl5\n") (okStream "1\n\n1\n")
        (new_index_type none false) false)
      = .ok [.ok "l1\n", .ok "l3\n"]
    ∧ Select.run 30 (Select.new (okStream "l1\nl2\nl3\nl4\nl5\n") (okStream "1\n\n1\n")
        (new_index_type none false) true)
      = .ok [.ok "l2\n", .ok "l4\n", .ok "l5\n"] := by
  constructor <;> decide

/-- C3: in every engine state where reading the next index line signals
end-of-stream, in both dialects (no numeric predicate loaded, a content
predicate, or a numeric predicate already passed so that a fresh read is
triggered), the inner decision yields `Accept` when the invert flag is set
and `EndOfIndex` (halt) when it is not — invert changes the terminal
disposition rather than negating a per-line `Accept`/`Deny`. -/
theorem C3_end_of_index_disposition :
    (∀ (fuel : Nat) (s : Select) (linum : Nat),
        s.index_stream = [] →
        (s.index_type = none ∨ ∃ p, s.index_type = some (.Re p)) →
        Select.select (fuel + 1) s linum
          = .ok ((if s.invert_match then .Accept else .EndOfIndex),
              { s with index_stream_linum := s.index_stream_linum + 1 }))
    ∧ (∀ (fuel : Nat) (s : Select) (linum : Nat) (r : Range),
        s.index_stream = [] →
        s.index_type = some (.Number r) →
        (Ty.Number r).end_ < linum →
        Select.select (fuel + 2) s linum
          = .ok ((if s.invert_match then .Accept else .EndOfIndex),
              { s with
                  index_type := none,
                  index_stream_linum := s.index_stream_linum + 1 })) := by
  constructor
  · intro fuel s linum hstream hty
    obtain ⟨ty, inv, ts, tl, ist, il, eoi⟩ := s
    simp only at hstream hty ⊢
    subst hstream
    rcases hty with h | ⟨p, h⟩ <;> subst h <;> cases inv <;> rfl
  · intro fuel s linum r hstream hty hlt
    obtain ⟨ty, inv, ts, tl, ist, il, eoi⟩ := s
    simp only at hstream hty ⊢
    subst hstream
    subst hty
    cases inv <;> simp [Select.select, hlt]

/-- C3 witness: the theorem applied to a concrete empty-index state in
both dialect situations, with invert flag `false` and `true`. -/
theorem C3_end_of_index_disposition_witness :
    Select.select 1 ⟨none, false, [], 0, [], 0, false⟩ 1
      = .ok (.EndOfIndex, ⟨none, false, [], 0, [], 1, false⟩)
    ∧ Select.select 3 ⟨some (.Number (.Single 1)), true, [], 0, [], 0, false⟩ 2
      = .ok (.Accept, ⟨none, true, [], 0, [], 1, false⟩) := by
  constructor
  · have := C3_end_of_index_disposition.1 0 ⟨none, false, [], 0, [], 0, false⟩ 1 rfl
      (Or.inl rfl)
    simpa using this
  · have := C3_end_of_index_disposition.2 1 ⟨some (.Number (.Single 1)), true, [], 0, [], 0,
      false⟩ 2 (.Single 1) rfl rfl (by decide)
    simpa using this

/-- C4: numeric-dialect index bookkeeping never skips a target line.  When
the loaded range's upper bound is strictly below the current target line
number, the predicate is cleared and the decision re-entered for the same
line number; a blank trimmed index line is skipped and the decision
re-entered for the same line number; a freshly parsed range is stored and
the decision re-entered for the same line number; and a range still in
play judges the line directly against the active predicate. -/
theorem C4_numeric_bookkeeping :
    (∀ (fuel : Nat) (s : Select) (linum : Nat) (r : Range),
        s.index_type = some (.Number r) → (Ty.Number r).end_ < linum →
        Select.select (fuel + 1) s linum
          = Select.select fuel { s with index_type := none } linum)
    ∧ (∀ (fuel : Nat) (s : Select) (linum : Nat) (l : String) (rest : List ReadItem),
        s.index_type = none → s.index_stream = .ok l :: rest → (rstrip l).isEmpty = true →
        Select.select (fuel + 1) s linum
          = Select.select fuel
              { s with index_stream := rest, index_stream_linum := s.index_stream_linum + 1 }
              linum)
    ∧ (∀ (fuel : Nat) (s : Select) (linum : Nat) (l : String) (rest : List ReadItem)
          (rem : String) (x : Range),
        s.index_type = none → s.index_stream = .ok l :: rest → (rstrip l).isEmpty = false →
        range (rstrip l) = .ok rem x →
        Select.select (fuel + 1) s linum
          = Select.select fuel
              { s with
                  index_type := some (.Number x),
                  index_stream := rest,
                  index_stream_linum := s.index_stream_linum + 1 }
              linum)
    ∧ (∀ (fuel : Nat) (s : Select) (linum : Nat) (r : Range),
        s.index_type = some (.Number r) → ¬ (Ty.Number r).end_ < linum →
        Select.select (fuel + 1) s linum
          = .ok ((if (Ty.Number r).select linum "" != s.invert_match
                  then .Accept else .Deny), s)) := by
  refine ⟨?_, ?_, ?_, ?_⟩
  · intro fuel s linum r hty hlt
    obtain ⟨ty, inv, ts, tl, ist, il, eoi⟩ := s
    simp only at hty ⊢
    subst hty
    simp [Select.select, hlt]
  · intro fuel s linum l rest hty hstream hblank
    obtain ⟨ty, inv, ts, tl, ist, il, eoi⟩ := s
    simp only at hty hstream ⊢
    subst hty; subst hstream
    simp [Select.select, hblank]
  · intro fuel s linum l rest rem x hty hstream hblank hrange
    obtain ⟨ty, inv, ts, tl, ist, il, eoi⟩ := s
    simp only at hty hstream ⊢
    subst hty; subst hstream
    simp [Select.select, hblank, hrange]
  · intro fuel s linum r hty hlt
    obtain ⟨ty, inv, ts, tl, ist, il, eoi⟩ := s
    simp only at hty ⊢
    subst hty
    simp [Select.select, hlt]
    split <;> rfl

/-- C4 witness: the theorem applied to concrete states — a passed range is
cleared and re-entered for the same line, and an in-play range judges the
line directly. -/
theorem C4_numeric_bookkeeping_witness :
    Select.select 1 ⟨some (.Number (.Single 1)), false, [], 0, [], 0, false⟩ 2
      = Select.select 0 ⟨none, false, [], 0, [], 0, false⟩ 2
    ∧ Select.select 1 ⟨some (.Number (.Interval 3 4)), false, [], 0, [], 0, false⟩ 3
      = .ok (.Accept, ⟨some (.Number (.Interval 3 4)), false, [], 0, [], 0, false⟩) := by
  constructor
  · exact C4_numeric_bookkeeping.1 0 ⟨some (.Number (.Single 1)), false, [], 0, [], 0, false⟩
      2 (.Single 1) rfl (by decide)
  · have := C4_numeric_bookkeeping.2.2.2 0
      ⟨some (.Number (.Interval 3 4)), false, [], 0, [], 0, false⟩ 3 (.Interval 3 4)
      rfl (by decide)
    simpa using this

/-- C5: `Numeric(Single(k)).select(n, _) = (n == k)`;
`Numeric(Interval(s,e)).select(n, _) = (s ≤ n && n ≤ e)`, which is `false`
for every `n` when `s > e`; and `select` on a numeric predicate does not
depend on the content argument. -/
theorem C5_numeric_predicate :
    (∀ (n k : Nat) (c : String), Ty.select (.Number (.Single k)) n c = (n == k))
    ∧ (∀ (n s e : Nat) (c : String),
        Ty.select (.Number (.Interval s e)) n c = (decide (s ≤ n) && decide (n ≤ e)))
    ∧ (∀ (n s e : Nat) (c : String), s > e →
        Ty.select (.Number (.Interval s e)) n c = false)
    ∧ (∀ (r : Range) (n : Nat) (c c' : String),
        Ty.select (.Number r) n c = Ty.select (.Number r) n c') := by
  refine ⟨fun n k c => ?_, fun n s e c => rfl, fun n s e c h => ?_, fun r n c c' => ?_⟩
  · simp only [Ty.select]
    by_cases h : k = n
    · simp [h]
    · simp [h, Ne.symm h]
  · simp only [Ty.select]
    simp only [Bool.and_eq_false_iff, decide_eq_false_iff_not, not_le]
    omega
  · cases r <;> rfl

/-- C5 witness: the theorem applied at `n = 4`, `s = 5`, `e = 3`. -/
theorem C5_numeric_predicate_witness :
    5 > 3 ∧ Ty.select (.Number (.Interval 5 3)) 4 "x" = false :=
  ⟨by decide, C5_numeric_predicate.2.2.1 4 5 3 "x" (by decide)⟩

/-- C6: the range grammar satisfies `range "4" = Single 4`,
`range "4,8" = Interval 4 8`, `range ",5" = Interval u32::MIN 5`,
`range "5," = Interval 5 u32::MAX`, `range "1,1" = Interval 1 1`,
`range "4,3" = Interval 4 3` (parses though it matches nothing), and
`range "0"`, `range "-1,2"`, `range ""` each fail with a parse error. -/
theorem C6_range_grammar :
    range "4" = .ok "" (.Single 4)
    ∧ range "4,8" = .ok "" (.Interval 4 8)
    ∧ range ",5" = .ok "" (.Interval U32_MIN 5)
    ∧ range "5," = .ok "" (.Interval 5 U32_MAX)
    ∧ range "1,1" = .ok "" (.Interval 1 1)
    ∧ range "4,3" = .ok "" (.Interval 4 3)
    ∧ range "0" = .fail
    ∧ range "-1,2" = .fail
    ∧ range "" = .fail := by
  refine ⟨?_, ?_, ?_, ?_, ?_, ?_, ?_, ?_, ?_⟩ <;> decide

/-- C8: the engine is deterministic — two engines built from identical
streams and identical configuration (dialect selector, pattern, invert
flag) produce identical output sequences, error items included.  In the
embedding the engine is a pure function of its initial state, so this is
congruence of `Select.run`. -/
theorem C8_deterministic (fuel : Nat) (t i : List ReadItem) (ty : Option Ty) (inv : Bool)
    (s1 s2 : Select) (h1 : s1 = Select.new t i ty inv) (h2 : s2 = Select.new t i ty inv) :
    Select.run fuel s1 = Select.run fuel s2 := by
  subst h1; subst h2; rfl

/-- C8 witness: the theorem applied to two engines over the C1 inputs. -/
theorem C8_deterministic_witness :
    Select.run 30 (Select.new (okStream "l1\nl2\nl3\nl4\nl5\n") (okStream "1\n3,4\n") none false)
      = Select.run 30 (Select.new (okStream "l1\nl2\nl3\nl4\nl5\n") (okStream "1\n3,4\n")
          none false) :=
  C8_deterministic 30 (okStream "l1\nl2\nl3\nl4\nl5\n") (okStream "1\n3,4\n") none false _ _
    rfl rfl

/-- C7: the halted flag is a sticky absorbing state — once `eoi` is set
the engine returns `None` on every subsequent `next` call, and whenever
`next` emits an IO or Parse failure item the post-state has `eoi` set, so
that failure is the last item the sequence ever produces. -/
theorem C7_halted_sticky :
    (∀ (fuel : Nat) (s : Select), s.eoi = true →
        Select.next (fuel + 1) s = .ok (none, s))
    ∧ (∀ (fuel : Nat) (s : Select) (e : SelectError) (s' : Select),
        Select.next fuel s = .ok (some (.error e), s') → s'.eoi = true) := by
  constructor
  · intro fuel s h
    simp [Select.next, h]
  · intro fuel
    induction fuel with
    | zero => intro s e s' h; simp [Select.next] at h
    | succ fuel ih =>
      intro s e s' h
      simp only [Select.next] at h
      by_cases heoi : s.eoi
      · simp [heoi] at h
      · simp only [heoi, Bool.false_eq_true, if_false] at h
        split at h
        · -- an err item was read from the target stream
          simp only [Res.ok.injEq, Prod.mk.injEq] at h
          rw [← h.2]
        · -- end of target: `next` recursed on the disabled state
          exact ih _ _ _ h
        · -- a line was read: case on the inner `select` outcome
          split at h
          · simp at h
          · simp at h
          · -- `select` returned an error
            simp only [Res.ok.injEq, Prod.mk.injEq] at h
            rw [← h.2]
          · exact ih _ _ _ h
          · simp at h
          · exact ih _ _ _ h

/-- C7 witness: the theorem applied to a concrete halted state, and to a
concrete state whose next item is an IO failure. -/
theorem C7_halted_sticky_witness :
    Select.next 1 ⟨none, false, [], 0, [], 0, true⟩
      = .ok (none, ⟨none, false, [], 0, [], 0, true⟩)
    ∧ (⟨none, false, [], 1, [], 0, true⟩ : Select).eoi = true := by
  constructor
  · exact C7_halted_sticky.1 0 ⟨none, false, [], 0, [], 0, true⟩ rfl
  · exact C7_halted_sticky.2 1 ⟨none, false, [.err "boom"], 0, [], 0, false⟩ (.Io "boom")
      ⟨none, false, [], 1, [], 0, true⟩ rfl

/-- C9: in the numeric dialect a Parse error is raised for a non-empty
trimmed index line exactly when no grammar alternative matches a prefix of
the line; when an alternative matches a proper prefix (`"1,2,3"`,
`"4abc"`), `range` succeeds with the range parsed from that prefix, the
engine stores it as the current predicate, and the unconsumed trailing
text is silently discarded. -/
theorem C9_prefix_parsing :
    range "1,2,3" = .ok ",3" (.Interval 1 2)
    ∧ range "4abc" = .ok "abc" (.Single 4)
    ∧ (∀ l : String,
        range l = .fail ↔ (interval l = .fail ∧ interval_left_open l = .fail
          ∧ interval_right_open l = .fail ∧ single l = .fail))
    ∧ (∀ (fuel : Nat) (inv : Bool) (k : Nat) (t : List ReadItem) (tl il : Nat),
        Select.select (fuel + 1)
            ⟨none, inv, t, tl, [.ok "1,2,3\n"], il, false⟩ k
          = Select.select fuel
            ⟨some (.Number (.Interval 1 2)), inv, t, tl, [], il + 1, false⟩ k)
    ∧ (∀ (fuel : Nat) (s : Select) (linum : Nat) (l : String),
        s.index_type = none → s.index_stream = [.ok l] → (rstrip l).isEmpty = false →
        ((∃ m s', Select.select (fuel + 3) s linum = .ok (.Error (.Parse m), s'))
          ↔ range (rstrip l) = .fail)) := by
  refine ⟨by decide, by decide, ?_, ?_, ?_⟩
  · intro l
    cases h1 : interval l <;> cases h2 : interval_left_open l <;>
      cases h3 : interval_right_open l <;> cases h4 : single l <;>
      simp [range, h1, h2, h3, h4]
  · intro fuel inv k t tl il
    rfl
  · intro fuel s linum l hty hstream hblank
    obtain ⟨ty, inv, ts, tl, ist, il, eoi⟩ := s
    simp only at hty hstream ⊢
    subst hty; subst hstream
    cases hr : range (rstrip l) with
    | fail => simp [Select.select, hblank, hr]
    | panicked => simp [Select.select, hblank, hr]
    | ok rem x =>
      simp only [Select.select, hblank, hr, Bool.false_eq_true, if_false]
      apply iff_of_false
      · rintro ⟨m, s', hms⟩
        split at hms <;> split at hms <;> simp at hms
      · simp

/-- C9 witness: the Parse-error criterion applied to the unparsable index
line `"xyz\n"` and (inside the proof of the theorem's last conjunct) to a
concrete engine state holding it. -/
theorem C9_prefix_parsing_witness :
    (rstrip "xyz\n").isEmpty = false
    ∧ ((∃ m s', Select.select 4 ⟨none, false, [], 0, [.ok "xyz\n"], 0, false⟩ 1
          = .ok (.Error (.Parse m), s'))
        ↔ range (rstrip "xyz\n") = .fail) :=
  ⟨by decide, C9_prefix_parsing.2.2.2.2 1 ⟨none, false, [], 0, [.ok "xyz\n"], 0, false⟩ 1
    "xyz\n" rfl rfl (by decide)⟩

/-- C10 counterexample: `range` is not panic-free — on the input
`"4294967296"` (one more than `u32::MAX`) the recognized digit run
overflows `u32`, `value.parse::<u32>().unwrap()` panics, and `range`
neither returns a `Range` nor a parse error. -/
theorem C10_overflow_counterexample : range "4294967296" = .panicked := by decide

/-- C10 (amended): `range` terminates on every input, and for every input
string in which no digit run (the maximal digit prefix starting at any
position) denotes a value above `u32::MAX`, it returns either a parsed
`Range` or a parse error, without panicking; when a recognized digit run
exceeds `u32::MAX`, the conversion to `u32` in `natural` panics. -/
theorem C10_total_up_to_overflow (s : String)
    (hyp : ∀ k, digitsToNat ((s.data.drop k).takeWhile (one_of "0123456789")) ≤ U32_MAX) :
    range s ≠ .panicked := by
  cases h1 : interval s with
  | panicked => exact absurd h1 (interval_ne_panicked s hyp)
  | ok rest v => simp [range, h1]
  | fail =>
    cases h2 : interval_left_open s with
    | panicked => exact absurd h2 (interval_left_open_ne_panicked s hyp)
    | ok rest v => simp [range, h1, h2]
    | fail =>
      cases h3 : interval_right_open s with
      | panicked => exact absurd h3 (interval_right_open_ne_panicked s hyp)
      | ok rest v => simp [range, h1, h2, h3]
      | fail =>
        have h4 := single_ne_panicked s hyp
        simpa [range, h1, h2, h3] using h4

/-- C10 witness: the amended theorem applied at `"123,5"`. -/
theorem C10_total_up_to_overflow_witness :
    (∀ k, digitsToNat ((("123,5").data.drop k).takeWhile (one_of "0123456789")) ≤ U32_MAX)
    ∧ range "123,5" ≠ .panicked := by
  have hk : ∀ k,
      digitsToNat ((("123,5").data.drop k).takeWhile (one_of "0123456789")) ≤ U32_MAX := by
    intro k
    match k with
    | 0 => decide
    | 1 => decide
    | 2 => decide
    | 3 => decide
    | 4 => decide
    | n + 5 =>
      have hlen : ("123,5").data.length = 5 := rfl
      have hnil : ("123,5").data.drop (n + 5) = [] := by
        apply List.drop_eq_nil_of_le
        omega
      simp [hnil, digitsToNat, U32_MAX]
  exact ⟨hk, C10_total_up_to_overflow "123,5" hk⟩

end Lisel
